import Mathlib

/-!
Verification development for the ChronoBot event-reminder bot
(source: src/chromie.py).

The reconciliation core of the bot is shallowly embedded here:

* Instants are integers (UTC epoch seconds).  The configured timezone
  (`DEFAULT_TZ`, a fixed IANA zone in the source) is modelled as a fixed
  UTC offset `off` in seconds: `datetime.fromtimestamp(ts, tz).date()`
  becomes the civil day index `localDay off ts`.  No DST transition is
  assumed inside the windows the theorems talk about.
* Python dict-backed event records become the structure `EventRec`; the
  defensive `isinstance`/missing-key fix-ups of the source are typed away
  (every field is present and well-typed in the model).
* Discord deliveries are abstracted by an environment `Env` giving the
  outcome of each send (`ok`, `Forbidden`, other `HTTPException`), and
  raised-and-uncaught Python exceptions become `Except.error`.
* File I/O in the persistence layer is abstracted to the three inputs the
  loader distinguishes (missing file / unparseable file / parsed JSON
  value), and the rename-aside of a corrupt file is recorded as an
  explicit action.
-/

/-! ## Constants (src/chromie.py lines 26, 193, 391-393) -/

def DEFAULT_MILESTONES : List Int := [100, 60, 30, 14, 7, 2, 1, 0]

def EVENT_START_GRACE_SECONDS : Int := 60 * 60

def STARTED_EVENT_KEEP_SECONDS : Int := EVENT_START_GRACE_SECONDS

/-! ## Temporal helpers (src/chromie.py lines 328-360) -/

/-- Civil day index of epoch instant `t` in a timezone of fixed UTC offset
`off` seconds: models `datetime.fromtimestamp(t, tz).date()`. -/
def localDay (off t : Int) : Int := (t + off) / 86400

/-- Epoch instant of civil `(day, sec)` at fixed offset `off`:
the inverse of `localDay` paired with the in-day second. -/
def mkLocal (off day sec : Int) : Int := day * 86400 + sec - off

/-- `calendar_days_left` (lines 332-334): date-only difference between the
event instant and now, in the configured timezone. -/
def calendar_days_left (off now ts : Int) : Int := localDay off ts - localDay off now

/-- `_today_local_date` (lines 328-329) as a civil day index. -/
def todayLocal (off now : Int) : Int := localDay off now

/-- `compute_time_left` (lines 337-360): returns
`(description, days_left_floor, event_passed)`. -/
def compute_time_left (now ts : Int) : String × Int × Bool :=
  let total := ts - now
  if total ≤ 0 then
    ("The event is happening now or has already started! 💕", 0, true)
  else
    let days := total / 86400
    let rem := total % 86400
    let hours := rem / 3600
    let rem2 := rem % 3600
    let minutes := rem2 / 60
    let seconds := rem2 % 60
    let parts : List String :=
      (if days ≠ 0 then
        [toString days ++ " day" ++ (if days ≠ 1 then "s" else "")] else []) ++
      (if hours ≠ 0 then
        [toString hours ++ " hour" ++ (if hours ≠ 1 then "s" else "")] else []) ++
      (if minutes ≠ 0 then
        [toString minutes ++ " minute" ++ (if minutes ≠ 1 then "s" else "")] else [])
    let parts :=
      if parts = [] then
        [toString seconds ++ " second" ++ (if seconds ≠ 1 then "s" else "")]
      else parts
    (String.intercalate " • " parts, days, false)

/-! ## Event records (schema comment lines 150-191 and the literal built at
lines 3402-3420).  The repeat anchor date is stored in the source as an ISO
string (`None`/empty/a malformed string all behave as "reset to today"); it
is modelled as an `Option` of a civil day index, `none` playing the role of
every falsy/unparseable value. -/

structure EventRec where
  name : String := ""
  timestamp : Int := 0
  milestones : List Int := DEFAULT_MILESTONES
  announced_milestones : List Int := []
  repeat_every_days : Option Int := none
  repeat_anchor_date : Option Int := none
  announced_repeat_dates : List Int := []
  silenced : Bool := false
  created_by_user_id : Option Int := none
  created_by_name : String := ""
  owner_user_id : Option Int := none
  owner_name : String := ""
  start_announced : Bool := false
  banner_url : Option String := none
  deriving DecidableEq, Repr

/-! ## parse_milestones (src/chromie.py lines 363-388)

Python string primitives are modelled at the character-list level:
`str.replace` with the one-character patterns used here is a character map,
`str.strip` drops boundary whitespace, and `str.split()` with no argument
splits on whitespace runs producing no empty parts.  `int(p)` is modelled
for an optional sign followed by decimal digits (the source's tokens are
whitespace-free; underscore digit grouping and non-ASCII digits accepted by
Python's `int` are not modelled). -/

/-- The two `replace` calls of line 374: each turns one separator character
into a space. -/
def pyCleanChar (c : Char) : Char := if c = ',' ∨ c = ';' then ' ' else c

/-- `str.strip()`: drop leading and trailing whitespace. -/
def pyStrip (cs : List Char) : List Char :=
  ((cs.dropWhile (fun c => c.isWhitespace)).reverse.dropWhile
    (fun c => c.isWhitespace)).reverse

/-- Helper for `str.split()`: cut at every whitespace character (empty
pieces are filtered away by the caller). -/
def splitWsAux : List Char → List Char → List (List Char)
  | [], acc => [acc.reverse]
  | c :: rest, acc =>
    if c.isWhitespace then acc.reverse :: splitWsAux rest []
    else splitWsAux rest (c :: acc)

/-- Decimal digit accumulator for `int(p)`. -/
def digitsToNatAux : List Char → Nat → Option Nat
  | [], acc => some acc
  | c :: rest, acc =>
    if c.isDigit then digitsToNatAux rest (10 * acc + (c.toNat - 48))
    else none

/-- Python `int(p)` on a whitespace-free token: optional sign then digits,
`none` for the `ValueError` case. -/
def pyInt : List Char → Option Int
  | [] => none
  | '+' :: rest => if rest = [] then none else (digitsToNatAux rest 0).map Int.ofNat
  | '-' :: rest =>
    if rest = [] then none else (digitsToNatAux rest 0).map (fun n => -(n : Int))
  | cs => (digitsToNatAux cs 0).map Int.ofNat

/-- The parse-and-range-check loop of lines 377-385: `ValueError` or an
out-of-range value makes the whole parse return `None`. -/
def readInts : List (List Char) → Option (List Int)
  | [] => some []
  | p :: rest =>
    match pyInt p with
    | none => none
    | some n =>
      if n < 0 ∨ n > 5000 then none
      else (readInts rest).map (fun out => n :: out)

/-- Insert into a strictly-descending duplicate-free list, used to model
`sorted(set(out), reverse=True)` (line 387): the result is the unique
strictly-descending enumeration of the distinct elements. -/
def insertDescU (n : Int) : List Int → List Int
  | [] => [n]
  | m :: rest =>
    if n > m then n :: m :: rest
    else if n = m then m :: rest
    else m :: insertDescU n rest

/-- `sorted(set(out), reverse=True)` of line 387. -/
def sortedSetDesc (l : List Int) : List Int := l.foldl (fun acc n => insertDescU n acc) []

/-- `parse_milestones` (lines 363-388). -/
def parse_milestones (text : String) : Option (List Int) :=
  let tl := text.toList
  if tl = [] ∨ pyStrip tl = [] then none
  else
    let cleaned := pyStrip (tl.map pyCleanChar)
    let parts := (splitWsAux cleaned []).filter (fun p => p ≠ [])
    match readInts parts with
    | none => none
    | some out => some (sortedSetDesc out)

/-! ## Event sorting and pruning (src/chromie.py lines 240-245, 395-437) -/

/-- Insert by timestamp, keeping ascending order (models the effect of the
stable `list.sort(key=timestamp)` of `sort_events`, lines 240-245). -/
def insertByTs (ev : EventRec) : List EventRec → List EventRec
  | [] => [ev]
  | e :: rest =>
    if ev.timestamp < e.timestamp then ev :: e :: rest
    else e :: insertByTs ev rest

/-- `sort_events` on the events list. -/
def sortEventsByTs (l : List EventRec) : List EventRec := l.foldr insertByTs []

/-- The keep predicate of lines 424-431: a future event is kept, a started
event is kept while its age is within the keep window. -/
def keepEvent (now keep : Int) (ev : EventRec) : Bool :=
  if ev.timestamp ≤ now then decide (now - ev.timestamp ≤ keep) else true

/-- `prune_past_events` (lines 395-437) on the guild's events list; returns
the new list and the removed count.  Timestamps are always integers in the
model, so the `isinstance`/`fromtimestamp` defensive keeps do not arise. -/
def prune_past_events (events : List EventRec) (now : Int) : List EventRec × Nat :=
  let keep := max STARTED_EVENT_KEEP_SECONDS EVENT_START_GRACE_SECONDS
  let sorted := sortEventsByTs events
  let kept := sorted.filter (keepEvent now keep)
  let removed := sorted.length - kept.length
  (if removed ≠ 0 then sortEventsByTs kept else kept, removed)

/-! ## The per-event step of the reconciliation loop
(src/chromie.py lines 2763-2941)

Message bodies and mention building are cosmetic and elided; what is kept
is which sends are attempted, which state mutations follow a successful
send, and which exception handlers exist in each branch.  The
`discord.Forbidden` and generic `discord.HTTPException` outcomes of each
send are an input (`Env`).  The milestone branch catches only `Forbidden`
(lines 2862-2870); a generic `HTTPException` there is uncaught and
propagates out of the per-event body, which `Except.error` records. -/

inductive Notif where
  | startBlast
  | milestone (n : Int)
  | repeatReminder
  deriving DecidableEq, Repr

inductive PyExc where
  | httpException
  | attributeError
  deriving DecidableEq, Repr

inductive SendRes where
  | ok
  | forbidden
  | httpErr
  deriving DecidableEq, Repr

structure Env where
  sendStart : SendRes := .ok
  sendMilestone : SendRes := .ok
  sendRepeat : SendRes := .ok
  deriving DecidableEq, Repr

def allOk : Env := {}

/-- The repeat-due test of lines 2882-2893: a positive period, a positive
whole number of periods since the anchor (`None` anchor resets to today). -/
def repeatDue (off now : Int) (ev : EventRec) : Bool :=
  match ev.repeat_every_days with
  | none => false
  | some r =>
    decide (0 < r) &&
      (let t := todayLocal off now
       let anchor := ev.repeat_anchor_date.getD t
       let dsa := t - anchor
       decide (0 < dsa) && decide (dsa % r = 0))

/-- The capped repeat history `sent_dates[-180:]` of line 2916, after
appending today. -/
def cappedRepeatDates (off now : Int) (ev : EventRec) : List Int :=
  let sent := ev.announced_repeat_dates ++ [todayLocal off now]
  sent.drop (sent.length - 180)

/-- One event of one tick of `update_countdowns` (lines 2763-2941): the
returned actions are the messages publicly sent for this event, the
returned record carries the state mutations, and `Except.error` is an
exception escaping the per-event body. -/
def processEvent (off now : Int) (env : Env) (ev : EventRec) :
    Except PyExc (List Notif × EventRec) :=
  if ev.silenced then .ok ([], ev)
  else if ev.timestamp ≤ now then
    -- start blast branch (lines 2776-2813); it always ends in `continue`
    if !ev.start_announced && decide (now - ev.timestamp ≤ EVENT_START_GRACE_SECONDS) then
      match env.sendStart with
      | .ok => .ok ([.startBlast], { ev with start_announced := true })
      | .forbidden => .ok ([], ev)   -- caught: owner notification (line 2802)
      | .httpErr => .ok ([], ev)     -- caught: logged (line 2810)
    else .ok ([], ev)
  else
    -- future event: `compute_time_left` reports not passed here (line 2817)
    let d := calendar_days_left off now ev.timestamp
    if d < 0 then .ok ([], ev)
    else if ev.milestones.contains d && !ev.announced_milestones.contains d then
      match env.sendMilestone with
      | .ok =>
        -- lines 2854-2857: append to history; `milestone_sent_today = True`
        -- suppresses the repeat branch below (guard at line 2900)
        .ok ([.milestone d], { ev with announced_milestones := ev.announced_milestones ++ [d] })
      | .forbidden => .ok ([], ev)   -- caught, `continue` (line 2870)
      | .httpErr => .error .httpException  -- uncaught in this branch
    else
      -- repeat branch (lines 2882-2931), reached with no milestone sent
      if repeatDue off now ev && !ev.announced_repeat_dates.contains (todayLocal off now) then
        match env.sendRepeat with
        | .ok =>
          .ok ([.repeatReminder], { ev with announced_repeat_dates := cappedRepeatDates off now ev })
        | .forbidden => .ok ([], ev)  -- caught (line 2922)
        | .httpErr => .ok ([], ev)    -- caught (line 2930)
      else .ok ([], ev)

/-- The publicly sent actions of a per-event step (an escaped exception
means the failed send delivered nothing). -/
def actionsOf (r : Except PyExc (List Notif × EventRec)) : List Notif :=
  match r with
  | .ok (a, _) => a
  | .error _ => []

/-- The per-guild event loop (lines 2763-2941): events are processed in
order; an escaped exception aborts the loop, leaving the remaining events
untouched, and is caught only by the per-guild handler (line 2974).  The
`Bool` records whether the loop crashed. -/
def runEvents (off now : Int) : List (EventRec × Env) → List Notif × List EventRec × Bool
  | [] => ([], [], false)
  | (ev, env) :: rest =>
    match processEvent off now env ev with
    | .ok (acts, ev') =>
      let r := runEvents off now rest
      (acts ++ r.1, ev' :: r.2.1, r.2.2)
    | .error _ => ([], ev :: rest.map Prod.fst, true)

/-- Insert an event (with its send-outcome environment) by timestamp,
keeping ascending order: the pair-level counterpart of `insertByTs`. -/
def insertPairByTs (p : EventRec × Env) : List (EventRec × Env) → List (EventRec × Env)
  | [] => [p]
  | q :: rest =>
    if p.1.timestamp < q.1.timestamp then p :: q :: rest
    else q :: insertPairByTs p rest

/-- The `sort_events(guild_state)` call at line 2730: the guild's events
are put in ascending timestamp order before the per-event loop runs, so
the loop can only ever see them in that order. -/
def sortGuildEvents (l : List (EventRec × Env)) : List (EventRec × Env) :=
  l.foldr insertPairByTs []

/-- One guild's tick body: the sort of line 2730, then the event loop,
then pruning (line 2944) — pruning is skipped when the event loop
crashed, since the exception jumps to the per-guild handler.
Pinned-message refresh is platform glue and elided. -/
def runGuild (off now : Int) (evs : List (EventRec × Env)) :
    List Notif × List EventRec × Bool :=
  let r := runEvents off now (sortGuildEvents evs)
  if r.2.2 then r else (r.1, (prune_past_events r.2.1 now).1, false)

/-- The guild loop of `update_countdowns` (lines 2727, 2974-2976): each
guild's body runs inside its own try/except, so the loop always advances
to the next guild. -/
def runTick (off now : Int) : List (List (EventRec × Env)) → List (List Notif × List EventRec × Bool)
  | [] => []
  | g :: rest => runGuild off now g :: runTick off now rest

/-! ## Command handlers (the store-mutating cores, with permission gates,
Discord replies and pinned-message refresh elided) -/

structure GuildState where
  event_channel_id : Option Int := none
  events : List EventRec := []
  default_milestones : List Int := DEFAULT_MILESTONES
  deriving DecidableEq, Repr

/-- `addevent` from the date parse on (lines 3383-3424).  The
`datetime.strptime` result is abstracted to `Option Int`: `none` is the
`ValueError` of an unparseable date/time, `some ts` the parsed local
instant as epoch seconds. -/
def addevent (gs : GuildState) (parsedDT : Option Int) (now : Int)
    (name : String) (userId : Int) (userName : String) :
    GuildState × Option EventRec :=
  match parsedDT with
  | none => (gs, none)
  | some ts =>
    if ts ≤ now then (gs, none)
    else
      let ev : EventRec :=
        { name := name
          timestamp := ts
          milestones := gs.default_milestones
          announced_milestones := []
          repeat_every_days := none
          repeat_anchor_date := none
          announced_repeat_dates := []
          silenced := false
          created_by_user_id := some userId
          created_by_name := userName
          owner_user_id := some userId
          owner_name := userName
          start_announced := false
          banner_url := none }
      ({ gs with events := sortEventsByTs (gs.events ++ [ev]) }, some ev)

/-- The date/time path of `editevent` (lines 3588-3614): parse, reject a
past instant, otherwise set the timestamp and reset both announcement
histories.  `none` models both rejection replies. -/
def editevent_reschedule (ev : EventRec) (parsedDT : Option Int) (now : Int) :
    Option EventRec :=
  match parsedDT with
  | none => none
  | some ts =>
    if ts ≤ now then none
    else some { ev with timestamp := ts, announced_milestones := [], announced_repeat_dates := [] }

/-- `setmilestones` (lines 3809-3834): parse the input; `if not parsed:`
rejects both `None` and the empty list; on success replace the milestone
list and set the announced history to the empty list. -/
def setmilestones (ev : EventRec) (milestonesInput : String) : Option EventRec :=
  match parse_milestones milestonesInput with
  | some (a :: rest) =>
    some { ev with milestones := a :: rest, announced_milestones := [] }
  | _ => none

/-! ## Persistence loader (src/chromie.py lines 218-237)

`json.load` can produce any JSON value; `PyVal` models the shapes that
matter.  The loader's file handling is abstracted to the three
distinguishable inputs, and what it does to the on-disk file is recorded as
a `FileAct` (the source never deletes or overwrites: the only action it
takes on a bad file is `rename` to a timestamped `.corrupt.*` path,
lines 226-232). -/

inductive PyVal where
  | obj (kvs : List (String × PyVal))
  | arr (xs : List PyVal)
  | str (s : String)
  | int (n : Int)
  | bool (b : Bool)
  | null

inductive FileAct where
  | untouched
  | renamedAside
  deriving DecidableEq, Repr

inductive LoadInput where
  | missing
  | corrupt
  | valid (v : PyVal)

/-- Python `dict.setdefault`: add the key at the end when missing. -/
def pySetdefault (kvs : List (String × PyVal)) (k : String) (v : PyVal) :
    List (String × PyVal) :=
  if kvs.any (fun p => p.1 = k) then kvs else kvs ++ [(k, v)]

def hasKey (kvs : List (String × PyVal)) (k : String) : Bool :=
  kvs.any (fun p => p.1 = k)

/-- `load_state` (lines 218-237).  A missing file gives `data = {}`; an
unparseable file is renamed aside and gives `data = {}`; a parsed file
gives its JSON value.  The two `setdefault` calls then run on `data` —
which raises `AttributeError` (uncaught) when the parsed top level is not
an object. -/
def load_state : LoadInput → Except PyExc (FileAct × PyVal)
  | .missing =>
    .ok (.untouched, .obj (pySetdefault (pySetdefault [] "guilds" (.obj [])) "user_links" (.obj [])))
  | .corrupt =>
    .ok (.renamedAside, .obj (pySetdefault (pySetdefault [] "guilds" (.obj [])) "user_links" (.obj [])))
  | .valid (.obj kvs) =>
    .ok (.untouched, .obj (pySetdefault (pySetdefault kvs "guilds" (.obj [])) "user_links" (.obj [])))
  | .valid _ => .error .attributeError

/-! ## Helper lemmas on sorting and the descending-set builder -/

theorem mem_insertByTs (a ev : EventRec) (l : List EventRec) :
    a ∈ insertByTs ev l ↔ a = ev ∨ a ∈ l := by
  induction l with
  | nil => simp [insertByTs]
  | cons e rest ih =>
    unfold insertByTs
    split_ifs with h
    · simp [List.mem_cons]
    · simp [List.mem_cons, ih]
      tauto

theorem mem_sortEventsByTs (a : EventRec) (l : List EventRec) :
    a ∈ sortEventsByTs l ↔ a ∈ l := by
  unfold sortEventsByTs
  induction l with
  | nil => simp
  | cons e rest ih => simp [List.foldr_cons, mem_insertByTs, ih]

theorem keepEvent_iff (now k : Int) (hk : 0 ≤ k) (ev : EventRec) :
    keepEvent now k ev = true ↔ now - ev.timestamp ≤ k := by
  unfold keepEvent
  split_ifs with h
  · simp
  · simp
    omega

/-- C4: pruning removes exactly the events whose timestamp has passed by
more than the keep window (one hour, equal to the start-blast grace
window); future events and events within the window survive.  The concrete
conjunct checks the two spec instances: a started event thirty minutes old
survives, a started event ninety minutes old is pruned. -/
theorem prune_removes_exactly_beyond_keep_window :
    STARTED_EVENT_KEEP_SECONDS = EVENT_START_GRACE_SECONDS ∧
    (∀ (events : List EventRec) (now : Int) (ev : EventRec),
      ev ∈ (prune_past_events events now).1 ↔ ev ∈ events ∧ now - ev.timestamp ≤ 3600) ∧
    prune_past_events
      [{ name := "keep30", timestamp := -1800, start_announced := true },
       { name := "drop90", timestamp := -5400, start_announced := true }] 0 =
      ([{ name := "keep30", timestamp := -1800, start_announced := true }], 1) := by
  refine ⟨rfl, ?_, by decide⟩
  intro events now ev
  have hkeep : max STARTED_EVENT_KEEP_SECONDS EVENT_START_GRACE_SECONDS = 3600 := by decide
  have hite : ∀ (c : Prop) (_ : Decidable c) (l : List EventRec),
      (ev ∈ if c then sortEventsByTs l else l) ↔ ev ∈ l := by
    intro c _ l
    split <;> simp [mem_sortEventsByTs]
  simp only [prune_past_events, hkeep, hite]
  rw [List.mem_filter, mem_sortEventsByTs, keepEvent_iff now 3600 (by omega) ev]

/-- C6: rescheduling an event to any new future instant resets both
announcement histories to empty, whatever they contained, while keeping
the rest of the record (name, milestone configuration). -/
theorem editevent_reschedule_resets_history :
    ∀ (ev : EventRec) (ts now : Int), now < ts →
    ∀ ev', editevent_reschedule ev (some ts) now = some ev' →
    ev'.announced_milestones = [] ∧ ev'.announced_repeat_dates = [] ∧
    ev'.timestamp = ts ∧ ev'.name = ev.name ∧ ev'.milestones = ev.milestones := by
  intro ev ts now h ev' hev
  simp only [editevent_reschedule] at hev
  rw [if_neg (by omega)] at hev
  cases hev
  simp

/-- C6 witness: a concrete reschedule from announced histories
`[30, 14]` and `[5]` to a future instant clears both. -/
theorem editevent_reschedule_resets_history_witness :
    ({ timestamp := 100 } : EventRec).announced_milestones = [] ∧
    ({ timestamp := 100 } : EventRec).announced_repeat_dates = [] ∧
    ({ timestamp := 100 } : EventRec).timestamp = 100 ∧
    ({ timestamp := 100 } : EventRec).name =
      ({ timestamp := 50, announced_milestones := [30, 14],
         announced_repeat_dates := [5] } : EventRec).name ∧
    ({ timestamp := 100 } : EventRec).milestones =
      ({ timestamp := 50, announced_milestones := [30, 14],
         announced_repeat_dates := [5] } : EventRec).milestones :=
  editevent_reschedule_resets_history
    { timestamp := 50, announced_milestones := [30, 14], announced_repeat_dates := [5] }
    100 0 (by decide) { timestamp := 100 } (by decide)

/-- C1 counterexample: from `announced_milestones = [30, 14, 7]` and the
new list `100, 14, 0`, the set-milestones operation leaves
`announced_milestones = []`, not the intersection `[14]` the claim
states. -/
theorem setmilestones_not_intersection_cex :
    (setmilestones { milestones := [30, 14, 7], announced_milestones := [30, 14, 7] }
        "100, 14, 0").map EventRec.announced_milestones = some [] ∧
    (setmilestones { milestones := [30, 14, 7], announced_milestones := [30, 14, 7] }
        "100, 14, 0").map EventRec.announced_milestones ≠ some [14] := by
  decide

/-- C1 (amended): applying set-milestones with an accepted new milestone
list replaces the event's milestone list with the parsed list and resets
`announced_milestones` to the empty list (the history is cleared, not
intersected). -/
theorem setmilestones_replaces_and_clears :
    ∀ (ev : EventRec) (input : String) (ev' : EventRec),
    setmilestones ev input = some ev' →
    ev'.announced_milestones = [] ∧ parse_milestones input = some ev'.milestones ∧
    ev'.milestones ≠ [] ∧ ev'.timestamp = ev.timestamp := by
  intro ev input ev' h
  unfold setmilestones at h
  cases hp : parse_milestones input with
  | none => rw [hp] at h; cases h
  | some l =>
    rw [hp] at h
    cases l with
    | nil => cases h
    | cons a rest => cases h; simp [hp]

/-- C1 witness: the concrete set-milestones application of the
counterexample succeeds, and the amended theorem applies to it. -/
theorem setmilestones_replaces_and_clears_witness :
    ({ milestones := [100, 14, 0], announced_milestones := [] ,
       timestamp := 0 } : EventRec).announced_milestones = [] ∧
    parse_milestones "100, 14, 0" =
      some ({ milestones := [100, 14, 0], announced_milestones := [],
              timestamp := 0 } : EventRec).milestones ∧
    ({ milestones := [100, 14, 0], announced_milestones := [],
       timestamp := 0 } : EventRec).milestones ≠ [] ∧
    ({ milestones := [100, 14, 0], announced_milestones := [],
       timestamp := 0 } : EventRec).timestamp =
      ({ milestones := [30, 14, 7], announced_milestones := [30, 14, 7] } : EventRec).timestamp :=
  setmilestones_replaces_and_clears
    { milestones := [30, 14, 7], announced_milestones := [30, 14, 7] }
    "100, 14, 0"
    { milestones := [100, 14, 0], announced_milestones := [], timestamp := 0 }
    (by decide)

/-- C9: the add-event operation rejects an unparseable or non-future
date/time without touching the guild state or creating an event; every
record it does create has a strictly future timestamp, empty announcement
histories, `silenced = false` and `start_announced = false`, and lands in
the guild's event list. -/
theorem addevent_validates_before_mutation :
    ∀ (gs : GuildState) (parsedDT : Option Int) (now : Int)
      (name : String) (uid : Int) (uname : String),
    (parsedDT = none → addevent gs parsedDT now name uid uname = (gs, none)) ∧
    (∀ ts, parsedDT = some ts → ts ≤ now →
      addevent gs parsedDT now name uid uname = (gs, none)) ∧
    (∀ ev, (addevent gs parsedDT now name uid uname).2 = some ev →
      now < ev.timestamp ∧ ev.announced_milestones = [] ∧
      ev.announced_repeat_dates = [] ∧ ev.silenced = false ∧
      ev.start_announced = false ∧
      ev ∈ (addevent gs parsedDT now name uid uname).1.events) := by
  intro gs parsedDT now name uid uname
  refine ⟨?_, ?_, ?_⟩
  · intro h; subst h; rfl
  · intro ts h hle
    subst h
    simp only [addevent]
    rw [if_pos hle]
  · intro ev hev
    cases parsedDT with
    | none => cases hev
    | some ts =>
      simp only [addevent] at hev ⊢
      by_cases hle : ts ≤ now
      · rw [if_pos hle] at hev; cases hev
      · rw [if_neg hle] at hev ⊢
        cases hev
        refine ⟨?_, rfl, rfl, rfl, rfl, ?_⟩
        · show now < ts
          omega
        · simp [mem_sortEventsByTs]

/-- The record `addevent` builds for the C9 witness input. -/
def launchEvent : EventRec :=
  { name := "Launch", timestamp := 100, created_by_user_id := some 7,
    created_by_name := "nat", owner_user_id := some 7, owner_name := "nat" }

/-- C9 witness: a concrete accepted add at `now = 0`, instant `100`,
with the created record spelled out. -/
theorem addevent_validates_before_mutation_witness :
    (0 : Int) < launchEvent.timestamp ∧ launchEvent.announced_milestones = [] ∧
    launchEvent.announced_repeat_dates = [] ∧ launchEvent.silenced = false ∧
    launchEvent.start_announced = false ∧
    launchEvent ∈
      (addevent { event_channel_id := some 1 } (some 100) 0 "Launch" 7 "nat").1.events :=
  (addevent_validates_before_mutation
    { event_channel_id := some 1 } (some 100) 0 "Launch" 7 "nat").2.2
    launchEvent (by decide)

/-! ## Persistence loader lemmas -/

theorem hasKey_pySetdefault_self (kvs : List (String × PyVal)) (k : String) (v : PyVal) :
    hasKey (pySetdefault kvs k v) k = true := by
  unfold hasKey pySetdefault
  split_ifs with h
  · exact h
  · simp [List.any_append]

theorem hasKey_pySetdefault_other (kvs : List (String × PyVal)) (k kother : String) (v : PyVal)
    (h : hasKey kvs kother = true) : hasKey (pySetdefault kvs k v) kother = true := by
  unfold hasKey at h
  unfold hasKey pySetdefault
  split_ifs
  · exact h
  · rw [List.any_append, h, Bool.true_or]

/-- C8 counterexample: a file that parses as valid JSON whose top level is
not an object (here the JSON document `[]`) makes the loader raise — the
two `setdefault` calls run outside the try/except, and a list has no
`setdefault` — so load_state does not return a store for every input. -/
theorem load_state_nonobject_raises_cex :
    load_state (.valid (.arr [])) = .error .attributeError := rfl

/-- C8 (amended): a corrupt (unparseable) file is renamed aside — never
deleted or overwritten — and the loader continues with the empty store; a
missing file also yields the empty store; and for every parsed file whose
top level is a JSON object the loader returns, untouched, a store carrying
the top-level guilds and user_links maps.  Only a valid file with a
non-object top level escapes this (the counterexample). -/
theorem load_state_quarantine_and_defaults :
    load_state .corrupt =
      .ok (.renamedAside, .obj [("guilds", .obj []), ("user_links", .obj [])]) ∧
    load_state .missing =
      .ok (.untouched, .obj [("guilds", .obj []), ("user_links", .obj [])]) ∧
    (∀ kvs act store, load_state (.valid (.obj kvs)) = .ok (act, .obj store) →
      act = .untouched ∧ hasKey store "guilds" = true ∧ hasKey store "user_links" = true) ∧
    (∀ kvs, (load_state (.valid (.obj kvs))).isOk = true) := by
  refine ⟨rfl, rfl, ?_, ?_⟩
  · intro kvs act store h
    have h2 : load_state (.valid (.obj kvs)) =
        .ok (.untouched,
          .obj (pySetdefault (pySetdefault kvs "guilds" (.obj [])) "user_links" (.obj []))) := rfl
    rw [h2] at h
    injection h with h3
    injection h3 with ha hb
    injection hb with hs
    refine ⟨ha.symm, ?_, ?_⟩
    · rw [← hs]
      exact hasKey_pySetdefault_other _ _ _ _ (hasKey_pySetdefault_self _ _ _)
    · rw [← hs]
      exact hasKey_pySetdefault_self _ _ _
  · intro kvs
    rfl

/-- C8 witness: the amended theorem applied to a concrete object-rooted
file with one unrelated key. -/
theorem load_state_quarantine_and_defaults_witness :
    FileAct.untouched = FileAct.untouched ∧
    hasKey [("x", PyVal.null), ("guilds", PyVal.obj []), ("user_links", PyVal.obj [])]
      "guilds" = true ∧
    hasKey [("x", PyVal.null), ("guilds", PyVal.obj []), ("user_links", PyVal.obj [])]
      "user_links" = true :=
  load_state_quarantine_and_defaults.2.2.1 [("x", PyVal.null)] .untouched
    [("x", PyVal.null), ("guilds", PyVal.obj []), ("user_links", PyVal.obj [])] rfl

/-! ## Lemmas about the descending duplicate-free builder -/

theorem mem_insertDescU (x n : Int) (l : List Int) :
    x ∈ insertDescU n l ↔ x = n ∨ x ∈ l := by
  induction l with
  | nil => simp [insertDescU]
  | cons m rest ih =>
    unfold insertDescU
    split_ifs with h1 h2
    · simp [List.mem_cons]
    · subst h2
      simp [List.mem_cons]
    · simp [List.mem_cons, ih]
      tauto

theorem pairwise_insertDescU (n : Int) (l : List Int) (h : l.Pairwise (· > ·)) :
    (insertDescU n l).Pairwise (· > ·) := by
  induction l with
  | nil => simp [insertDescU]
  | cons m rest ih =>
    rcases List.pairwise_cons.mp h with ⟨hm, hrest⟩
    unfold insertDescU
    split_ifs with h1 h2
    · refine List.pairwise_cons.mpr ⟨?_, h⟩
      intro x hx
      rcases List.mem_cons.mp hx with rfl | hx
      · exact h1
      · exact lt_trans (hm x hx) h1
    · exact h
    · refine List.pairwise_cons.mpr ⟨?_, ih hrest⟩
      intro x hx
      rcases (mem_insertDescU x n rest).mp hx with rfl | hx
      · omega
      · exact hm x hx

theorem pairwise_foldl_insertDescU (l acc : List Int) (h : acc.Pairwise (· > ·)) :
    (l.foldl (fun a n => insertDescU n a) acc).Pairwise (· > ·) := by
  induction l generalizing acc with
  | nil => exact h
  | cons m rest ih => exact ih _ (pairwise_insertDescU m acc h)

theorem mem_foldl_insertDescU (l : List Int) :
    ∀ (acc : List Int) (x : Int),
      x ∈ l.foldl (fun a n => insertDescU n a) acc → x ∈ acc ∨ x ∈ l := by
  induction l with
  | nil => intro acc x hx; exact Or.inl hx
  | cons m rest ih =>
    intro acc x hx
    rcases ih (insertDescU m acc) x hx with hx2 | hx2
    · rcases (mem_insertDescU x m acc).mp hx2 with rfl | hx3
      · simp
      · exact Or.inl hx3
    · simp [hx2]

theorem readInts_bounds :
    ∀ (ps : List (List Char)) (out : List Int), readInts ps = some out →
      ∀ n ∈ out, 0 ≤ n ∧ n ≤ 5000 := by
  intro ps
  induction ps with
  | nil =>
    intro out h n hn
    cases h
    cases hn
  | cons p rest ih =>
    intro out h n hn
    cases hp : pyInt p with
    | none => simp [readInts, hp] at h
    | some m =>
      simp only [readInts, hp] at h
      split_ifs at h with hrange
      cases ho : readInts rest with
      | none => rw [ho] at h; cases h
      | some o =>
        rw [ho] at h
        cases h
        rcases List.mem_cons.mp hn with rfl | hn2
        · omega
        · exact ih o ho n hn2

/-- C10 counterexample: the input string consisting of a single comma is
accepted and yields the empty list — `parse_milestones` can return an
empty list, contrary to the claim that accepted input never produces
one. -/
theorem parse_milestones_empty_list_cex : parse_milestones "," = some [] := by decide

/-- C10 (amended): `parse_milestones` returns either `none` (non-integer
token, or an integer outside 0..5000, or empty/whitespace input) or a
duplicate-free list in strictly descending order whose elements lie in
0..5000 — but the accepted list may be empty, when the input consists only
of separator characters. -/
theorem parse_milestones_sorted_bounded :
    ∀ (s : String) (l : List Int), parse_milestones s = some l →
      l.Pairwise (· > ·) ∧ l.Nodup ∧ ∀ n ∈ l, 0 ≤ n ∧ n ≤ 5000 := by
  intro s l h
  simp only [parse_milestones] at h
  split_ifs at h with h1
  cases hr : readInts ((splitWsAux (pyStrip (s.toList.map pyCleanChar)) []).filter
      (fun p => p ≠ [])) with
  | none => rw [hr] at h; cases h
  | some out =>
    rw [hr] at h
    cases h
    refine ⟨pairwise_foldl_insertDescU out [] (by simp), ?_, ?_⟩
    · exact List.Pairwise.imp (fun hgt => ne_of_gt hgt)
        (pairwise_foldl_insertDescU out [] (by simp))
    · intro n hn
      rcases mem_foldl_insertDescU out [] n hn with hn2 | hn2
      · cases hn2
      · exact readInts_bounds _ out hr n hn2

/-- C10 witness: a concrete accepted input, with the shape guarantees of
the amended theorem. -/
theorem parse_milestones_sorted_bounded_witness :
    ([100, 14, 0] : List Int).Pairwise (· > ·) ∧ ([100, 14, 0] : List Int).Nodup ∧
    ∀ n ∈ ([100, 14, 0] : List Int), 0 ≤ n ∧ n ≤ 5000 :=
  parse_milestones_sorted_bounded "100, 14, 0" [100, 14, 0] (by decide)

/-! ## Case analysis of the per-event step -/

instance instDecEqExcept {e a : Type} [DecidableEq e] [DecidableEq a] :
    DecidableEq (Except e a) := fun x y =>
  match x, y with
  | .ok u, .ok v => decidable_of_iff (u = v) (by simp)
  | .error u, .error v => decidable_of_iff (u = v) (by simp)
  | .ok _, .error _ => isFalse (by simp)
  | .error _, .ok _ => isFalse (by simp)

/-- Exhaustive description of what one per-event step can do: nothing, a
start blast, a milestone reminder (appending to the history), a repeat
reminder, or an escaped exception. -/
theorem processEvent_cases (off now : Int) (env : Env) (ev : EventRec) :
    processEvent off now env ev = .ok ([], ev) ∨
    (ev.timestamp ≤ now ∧ env.sendStart = .ok ∧ ev.start_announced = false ∧
      processEvent off now env ev = .ok ([.startBlast], { ev with start_announced := true })) ∨
    (¬ ev.timestamp ≤ now ∧ env.sendMilestone = .ok ∧
      ev.milestones.contains (calendar_days_left off now ev.timestamp) = true ∧
      ev.announced_milestones.contains (calendar_days_left off now ev.timestamp) = false ∧
      processEvent off now env ev =
        .ok ([.milestone (calendar_days_left off now ev.timestamp)],
          { ev with announced_milestones :=
              ev.announced_milestones ++ [calendar_days_left off now ev.timestamp] })) ∨
    (¬ ev.timestamp ≤ now ∧
      processEvent off now env ev =
        .ok ([.repeatReminder],
          { ev with announced_repeat_dates := cappedRepeatDates off now ev })) ∨
    processEvent off now env ev = .error .httpException := by
  unfold processEvent
  by_cases hsil : ev.silenced = true
  · rw [if_pos hsil]
    exact Or.inl rfl
  · rw [if_neg hsil]
    by_cases ht : ev.timestamp ≤ now
    · rw [if_pos ht]
      by_cases hstart :
          (!ev.start_announced && decide (now - ev.timestamp ≤ EVENT_START_GRACE_SECONDS)) = true
      · rw [if_pos hstart]
        simp only [Bool.and_eq_true, Bool.not_eq_true'] at hstart
        cases hs1 : env.sendStart with
        | ok => exact Or.inr (Or.inl ⟨ht, rfl, hstart.1, rfl⟩)
        | forbidden => exact Or.inl rfl
        | httpErr => exact Or.inl rfl
      · rw [if_neg hstart]
        exact Or.inl rfl
    · rw [if_neg ht]
      dsimp only
      by_cases hd : calendar_days_left off now ev.timestamp < 0
      · rw [if_pos hd]
        exact Or.inl rfl
      · rw [if_neg hd]
        by_cases hm :
            (ev.milestones.contains (calendar_days_left off now ev.timestamp) &&
              !ev.announced_milestones.contains (calendar_days_left off now ev.timestamp)) = true
        · rw [if_pos hm]
          simp only [Bool.and_eq_true, Bool.not_eq_true'] at hm
          cases hs2 : env.sendMilestone with
          | ok => exact Or.inr (Or.inr (Or.inl ⟨ht, rfl, hm.1, hm.2, rfl⟩))
          | forbidden => exact Or.inl rfl
          | httpErr => exact Or.inr (Or.inr (Or.inr (Or.inr rfl)))
        · rw [if_neg hm]
          by_cases hrep :
              (repeatDue off now ev &&
                !ev.announced_repeat_dates.contains (todayLocal off now)) = true
          · rw [if_pos hrep]
            cases hs3 : env.sendRepeat with
            | ok => exact Or.inr (Or.inr (Or.inr (Or.inl ⟨ht, rfl⟩)))
            | forbidden => exact Or.inl rfl
            | httpErr => exact Or.inl rfl
          · rw [if_neg hrep]
            exact Or.inl rfl

/-- C2: one tick sends at most one message per event; the start-blast
branch (event instant already reached) excludes milestone and repeat
reminders for that event on that tick, and a milestone reminder excludes
the repeat reminder. -/
theorem at_most_one_reminder_per_event_per_tick :
    ∀ (off now : Int) (env : Env) (ev : EventRec),
      (actionsOf (processEvent off now env ev)).length ≤ 1 ∧
      (ev.timestamp ≤ now →
        (∀ n, Notif.milestone n ∉ actionsOf (processEvent off now env ev)) ∧
        Notif.repeatReminder ∉ actionsOf (processEvent off now env ev)) ∧
      (∀ n, Notif.milestone n ∈ actionsOf (processEvent off now env ev) →
        Notif.repeatReminder ∉ actionsOf (processEvent off now env ev)) := by
  intro off now env ev
  rcases processEvent_cases off now env ev with
    h | ⟨ht, hs, ha, h⟩ | ⟨ht, hs, hm1, hm2, h⟩ | ⟨ht, h⟩ | h
  · rw [h]; simp [actionsOf]
  · rw [h]; simp [actionsOf]
  · rw [h]
    exact ⟨by simp [actionsOf], fun hc => absurd hc ht, by simp [actionsOf]⟩
  · rw [h]
    exact ⟨by simp [actionsOf], fun hc => absurd hc ht, by simp [actionsOf]⟩
  · rw [h]; simp [actionsOf]

/-- C3: the per-event evaluation is a pure function of the event and the
instant — evaluating twice with no intervening mutation gives the same
result — and once a milestone `n` has been applied (appended to
`announced_milestones`), re-evaluating at the same instant fires no
milestone reminder for `n`. -/
theorem milestone_firing_idempotent :
    ∀ (off now : Int) (ev : EventRec) (acts : List Notif) (ev' : EventRec) (n : Int),
      processEvent off now allOk ev = .ok (acts, ev') →
      Notif.milestone n ∈ acts →
      processEvent off now allOk ev = processEvent off now allOk ev ∧
      Notif.milestone n ∉ actionsOf (processEvent off now allOk ev') := by
  intro off now ev acts ev' n h hmem
  refine ⟨rfl, ?_⟩
  rcases processEvent_cases off now allOk ev with
    h0 | ⟨_, _, _, h0⟩ | ⟨ht, _, hm1, hm2, h0⟩ | ⟨_, h0⟩ | h0 <;> rw [h0] at h
  · cases h
    cases hmem
  · cases h
    simp at hmem
  · cases h
    simp only [List.mem_singleton] at hmem
    rcases processEvent_cases off now allOk
        { ev with announced_milestones :=
            ev.announced_milestones ++ [calendar_days_left off now ev.timestamp] } with
      h1 | ⟨_, _, _, h1⟩ | ⟨_, _, _, hm4, h1⟩ | ⟨_, h1⟩ | h1
    · rw [h1]; simp [actionsOf]
    · rw [h1]; simp [actionsOf]
    · exfalso
      simp at hm4
    · rw [h1]; simp [actionsOf]
    · rw [h1]; simp [actionsOf]
  · cases h
    simp at hmem
  · cases h

/-- C3 witness: a concrete event two calendar days out with milestone 2
configured; the first evaluation fires milestone 2, and after it is
applied the re-evaluation fires nothing for 2. -/
theorem milestone_firing_idempotent_witness :
    processEvent 0 0 allOk { timestamp := 172900, milestones := [2] } =
      processEvent 0 0 allOk { timestamp := 172900, milestones := [2] } ∧
    Notif.milestone 2 ∉ actionsOf (processEvent 0 0 allOk
      { timestamp := 172900, milestones := [2], announced_milestones := [2] }) :=
  milestone_firing_idempotent 0 0 { timestamp := 172900, milestones := [2] }
    [.milestone 2] { timestamp := 172900, milestones := [2], announced_milestones := [2] }
    2 (by decide) (by decide)

/-! ## Calendar-day arithmetic -/

theorem localDay_mkLocal (off day s : Int) (h0 : 0 ≤ s) (h1 : s < 86400) :
    localDay off (mkLocal off day s) = day := by
  unfold localDay mkLocal
  have h : day * 86400 + s - off + off = day * 86400 + s := by ring
  rw [h]
  omega

/-- Equation for the milestone-firing branch of the per-event step. -/
theorem processEvent_milestone_eq (off now : Int) (env : Env) (ev : EventRec)
    (hsil : ev.silenced = false)
    (ht : ¬ ev.timestamp ≤ now)
    (hd : ¬ calendar_days_left off now ev.timestamp < 0)
    (hm : (ev.milestones.contains (calendar_days_left off now ev.timestamp) &&
          !ev.announced_milestones.contains (calendar_days_left off now ev.timestamp)) = true)
    (hok : env.sendMilestone = .ok) :
    processEvent off now env ev =
      .ok ([.milestone (calendar_days_left off now ev.timestamp)],
        { ev with announced_milestones :=
            ev.announced_milestones ++ [calendar_days_left off now ev.timestamp] }) := by
  unfold processEvent
  rw [if_neg (by simp [hsil]), if_neg ht]
  dsimp only
  rw [if_neg hd, if_pos hm, hok]

theorem compute_time_left_of_delta (now ts : Int) (h : ts - now = 32460) :
    (compute_time_left now ts).2.1 = 0 ∧ (compute_time_left now ts).2.2 = false := by
  simp only [compute_time_left]
  rw [h]
  exact ⟨rfl, rfl⟩

/-- C5: with the event at 09:00 local on civil day `d + 1` and now at
23:59 local on civil day `d` (same fixed-offset timezone; `off = -18000`
and `d` = the day index of 2026-04-11 gives the spec's concrete instance
in April's America/Chicago offset), `calendar_days_left` is the
calendar-date difference 1 even though fewer than 24 real hours remain —
while the truncated day floor of `compute_time_left` is 0 — and milestone
matching uses the calendar value: an event with milestone list `[1]` fires
`MILESTONE(1)` at that instant. -/
theorem calendar_days_left_calendar_not_truncated :
    ∀ off d : Int,
      calendar_days_left off (mkLocal off d 86340) (mkLocal off (d + 1) 32400) = 1 ∧
      (compute_time_left (mkLocal off d 86340) (mkLocal off (d + 1) 32400)).2.1 = 0 ∧
      (compute_time_left (mkLocal off d 86340) (mkLocal off (d + 1) 32400)).2.2 = false ∧
      actionsOf (processEvent off (mkLocal off d 86340) allOk
        { timestamp := mkLocal off (d + 1) 32400, milestones := [1] }) = [.milestone 1] := by
  intro off d
  have hnow : localDay off (mkLocal off d 86340) = d :=
    localDay_mkLocal off d 86340 (by decide) (by decide)
  have hev : localDay off (mkLocal off (d + 1) 32400) = d + 1 :=
    localDay_mkLocal off (d + 1) 32400 (by decide) (by decide)
  have hcdl : calendar_days_left off (mkLocal off d 86340) (mkLocal off (d + 1) 32400) = 1 := by
    unfold calendar_days_left
    rw [hnow, hev]
    ring
  have hdelta : mkLocal off (d + 1) 32400 - mkLocal off d 86340 = 32460 := by
    unfold mkLocal
    ring
  have hctl := compute_time_left_of_delta _ _ hdelta
  refine ⟨hcdl, hctl.1, hctl.2, ?_⟩
  have hcdl' : calendar_days_left off (mkLocal off d 86340)
      (({ timestamp := mkLocal off (d + 1) 32400, milestones := [1] } : EventRec).timestamp) = 1 :=
    hcdl
  have hts : ¬ ({ timestamp := mkLocal off (d + 1) 32400, milestones := [1] } : EventRec).timestamp
      ≤ mkLocal off d 86340 := by
    show ¬ mkLocal off (d + 1) 32400 ≤ mkLocal off d 86340
    unfold mkLocal
    omega
  rw [processEvent_milestone_eq off (mkLocal off d 86340) allOk
    { timestamp := mkLocal off (d + 1) 32400, milestones := [1] }
    rfl hts (by rw [hcdl']; decide) (by rw [hcdl']; simp) rfl]
  simp only [actionsOf]
  rw [hcdl']

/-- C7 counterexample: per-event isolation fails.  A server has two future
events, already in the ascending timestamp order that the sort of
line 2730 produces (the middle conjunct checks the sort leaves the list
unchanged, so this is exactly the order the source processes).  The
earlier event (two days out, milestone 2 due) raises a generic
`HTTPException` from its milestone send — caught only by the per-server
handler — and the later event of the same server (three days out,
milestone 3 due, whose own send would succeed) is not processed this
tick: the guild body returns no actions and the crash flag. -/
theorem event_crash_aborts_guild_events_cex :
    runGuild 0 0
      [({ timestamp := 172900, milestones := [2] }, { sendMilestone := .httpErr }),
       ({ timestamp := 259300, milestones := [3] }, allOk)] =
      ([], [{ timestamp := 172900, milestones := [2] },
        { timestamp := 259300, milestones := [3] }], true) ∧
    sortGuildEvents
      [({ timestamp := 172900, milestones := [2] }, { sendMilestone := .httpErr }),
       ({ timestamp := 259300, milestones := [3] }, allOk)] =
      [({ timestamp := 172900, milestones := [2] }, { sendMilestone := .httpErr }),
       ({ timestamp := 259300, milestones := [3] }, allOk)] ∧
    actionsOf (processEvent 0 0 allOk { timestamp := 259300, milestones := [3] }) =
      [.milestone 3] := by
  decide

/-- C7 (amended): per-server isolation holds — every server's tick outcome
is exactly its own `runGuild` result, independent of exceptions in other
servers, because each server's body runs in its own try/except.  Per-event
isolation does not hold: an exception escaping one event's processing
(e.g. an `HTTPException` raised by the milestone send, which that branch
does not catch) aborts the remaining events of that same server for the
tick. -/
theorem tick_per_server_isolation :
    (∀ (off now : Int) (guilds : List (List (EventRec × Env))),
      runTick off now guilds = guilds.map (runGuild off now)) ∧
    (∀ (off now : Int) (ev : EventRec) (env : Env) (e : PyExc)
        (rest : List (EventRec × Env)),
      processEvent off now env ev = .error e →
      runEvents off now ((ev, env) :: rest) = ([], ev :: rest.map Prod.fst, true)) := by
  constructor
  · intro off now guilds
    induction guilds with
    | nil => rfl
    | cons g rest ih => simp [runTick, ih]
  · intro off now ev env e rest h
    simp only [runEvents, h]

/-- C7 witness: the amended theorem applied to the concrete crashing
event of the counterexample, in front of the later future event, in the
ascending order the sort produces. -/
theorem tick_per_server_isolation_witness :
    runEvents 0 0
      [({ timestamp := 172900, milestones := [2] }, { sendMilestone := .httpErr }),
       ({ timestamp := 259300, milestones := [3] }, allOk)] =
      ([], [{ timestamp := 172900, milestones := [2] },
        { timestamp := 259300, milestones := [3] }], true) :=
  tick_per_server_isolation.2 0 0 { timestamp := 172900, milestones := [2] }
    { sendMilestone := .httpErr } .httpException
    [({ timestamp := 259300, milestones := [3] }, allOk)]
    (by decide)
